import Mathlib

/-!
Verification development for the AIMaster backend (Flask-AppBuilder app).

The definitions below are a shallow embedding of `app/api.py`,
`app/models.py` and `app/defaults.py`: JSON values are an inductive type,
the SQL tables are Lean lists, the in-process dictionaries (`SESSIONS`,
`ACTUAR2_VALUES`) are association lists, the static-artifact directory is
an association list from file name to file content, and the points where
the real system can fail non-deterministically (database commit, file
write) are explicit boolean/option parameters of the embedded handlers.
Strings are modelled over their character lists; Python `str.lower` /
`str.isalnum` are modelled at ASCII precision, which covers every string
the source and the spec mention.
-/

namespace AIMaster

/-- JSON values, as produced by `jsonify` in the source. -/
inductive JVal where
  | jnull
  | jstr (s : String)
  | jint (n : Nat)
  | jbool (b : Bool)
  | jarr (xs : List JVal)
  | jobj (fields : List (String × JVal))

/-- Field lookup in a serialized JSON object (first binding wins). -/
def jLookup (fields : List (String × JVal)) (k : String) : Option JVal :=
  (fields.find? (fun p => p.1 == k)).map (fun p => p.2)

/-- A row of the Flask-AppBuilder user table, restricted to the columns the
embedded endpoints read (`id`, `email`, `username`). -/
structure AppUser where
  id : Nat
  email : Option String
  username : Option String
deriving DecidableEq

/-! ### Decimal rendering of integers (Python `str(n)` for `n : Nat`) -/

/-- Digit accumulator loop for `natStr`; `fuel` bounds the recursion and
any `fuel > n` produces the full decimal form of `n`. -/
def natStrGo (fuel : Nat) (n : Nat) (acc : List Char) : List Char :=
  match fuel with
  | 0 => acc
  | fuel + 1 =>
    let acc := Nat.digitChar (n % 10) :: acc
    if n < 10 then acc else natStrGo fuel (n / 10) acc

/-- Embedding of Python `str(n)` for a non-negative integer. -/
def natStr (n : Nat) : String :=
  String.mk (natStrGo (n + 1) n [])

theorem natStrGo_eq_digits (fuel : Nat) :
    ∀ n acc, n < fuel → 0 < n →
      natStrGo fuel n acc = ((Nat.digits 10 n).map Nat.digitChar).reverse ++ acc := by
  induction fuel with
  | zero => intro n acc h _; omega
  | succ fuel ih =>
    intro n acc hlt hpos
    rw [natStrGo]
    rw [Nat.digits_def' (by norm_num : (1:ℕ) < 10) hpos]
    by_cases h10 : n < 10
    · have hdiv : n / 10 = 0 := Nat.div_eq_of_lt h10
      simp [h10, hdiv]
    · have hdivpos : 0 < n / 10 := Nat.div_pos (by omega) (by norm_num)
      have hdivlt : n / 10 < fuel := by
        have : n / 10 < n := Nat.div_lt_self hpos (by norm_num)
        omega
      simp only [if_neg h10]
      rw [ih (n / 10) (Nat.digitChar (n % 10) :: acc) hdivlt hdivpos]
      simp

theorem natStr_zero : natStr 0 = String.mk ['0'] := rfl

theorem natStr_eq_digits (n : Nat) (hn : 0 < n) :
    natStr n = String.mk (((Nat.digits 10 n).map Nat.digitChar).reverse) := by
  unfold natStr
  rw [natStrGo_eq_digits (n + 1) n [] (by omega) hn]
  simp

theorem digitChar_inj_lt10 :
    ∀ a < 10, ∀ b < 10, Nat.digitChar a = Nat.digitChar b → a = b := by decide

theorem map_digitChar_inj :
    ∀ (l₁ l₂ : List Nat), (∀ x ∈ l₁, x < 10) → (∀ x ∈ l₂, x < 10) →
      l₁.map Nat.digitChar = l₂.map Nat.digitChar → l₁ = l₂ := by
  intro l₁
  induction l₁ with
  | nil => intro l₂ _ _ h; cases l₂ <;> simp_all
  | cons a t ih =>
    intro l₂ h₁ h₂ h
    cases l₂ with
    | nil => simp at h
    | cons b t₂ =>
      simp only [List.map_cons, List.cons.injEq] at h
      have ha : a < 10 := h₁ a (by simp)
      have hb : b < 10 := h₂ b (by simp)
      have hab : a = b := digitChar_inj_lt10 a ha b hb h.1
      have ht : t = t₂ := by
        apply ih
        · intro x hx; exact h₁ x (by simp [hx])
        · intro x hx; exact h₂ x (by simp [hx])
        · exact h.2
      rw [hab, ht]

theorem natStr_inj (m n : Nat) (h : natStr m = natStr n) : m = n := by
  have hdata : natStrGo (m + 1) m [] = natStrGo (n + 1) n [] := by
    have := congrArg String.data h
    simpa [natStr] using this
  rcases Nat.eq_zero_or_pos m with hm | hm <;> rcases Nat.eq_zero_or_pos n with hn | hn
  · omega
  · exfalso
    subst hm
    have h0 : (['0'] : List Char) = ((Nat.digits 10 n).map Nat.digitChar).reverse := by
      have := natStrGo_eq_digits (n + 1) n [] (by omega) hn
      simpa [natStrGo] using hdata.trans this
    have hdig : (Nat.digits 10 n).map Nat.digitChar = ['0'] := by
      have := congrArg List.reverse h0
      simpa using this.symm
    have hzero : Nat.digits 10 n = [0] := by
      apply map_digitChar_inj
      · exact fun x hx => Nat.digits_lt_base (by norm_num) hx
      · intro x hx; simp at hx; omega
      · rw [hdig]; rfl
    have hn' : n = Nat.ofDigits 10 (Nat.digits 10 n) := (Nat.ofDigits_digits 10 n).symm
    rw [hzero] at hn'
    simp [Nat.ofDigits_cons, Nat.ofDigits_nil] at hn'
    omega
  · exfalso
    subst hn
    have h0 : ((Nat.digits 10 m).map Nat.digitChar).reverse = (['0'] : List Char) := by
      have := natStrGo_eq_digits (m + 1) m [] (by omega) hm
      simpa [natStrGo] using this.symm.trans hdata
    have hdig : (Nat.digits 10 m).map Nat.digitChar = ['0'] := by
      have := congrArg List.reverse h0
      simpa using this
    have hzero : Nat.digits 10 m = [0] := by
      apply map_digitChar_inj
      · exact fun x hx => Nat.digits_lt_base (by norm_num) hx
      · intro x hx; simp at hx; omega
      · rw [hdig]; rfl
    have hm' : m = Nat.ofDigits 10 (Nat.digits 10 m) := (Nat.ofDigits_digits 10 m).symm
    rw [hzero] at hm'
    simp [Nat.ofDigits_cons, Nat.ofDigits_nil] at hm'
    omega
  · have h₁ := natStrGo_eq_digits (m + 1) m [] (by omega) hm
    have h₂ := natStrGo_eq_digits (n + 1) n [] (by omega) hn
    have hrev : ((Nat.digits 10 m).map Nat.digitChar).reverse
        = ((Nat.digits 10 n).map Nat.digitChar).reverse := by
      have := h₁.symm.trans (hdata.trans h₂)
      simpa using this
    have hmap : (Nat.digits 10 m).map Nat.digitChar = (Nat.digits 10 n).map Nat.digitChar :=
      List.reverse_injective hrev
    have hdig : Nat.digits 10 m = Nat.digits 10 n := by
      apply map_digitChar_inj
      · exact fun x hx => Nat.digits_lt_base (by norm_num) hx
      · exact fun x hx => Nat.digits_lt_base (by norm_num) hx
      · exact hmap
    have h₃ := Nat.ofDigits_digits 10 m
    rw [hdig, Nat.ofDigits_digits] at h₃
    omega

/-- Every character of `natStr n` is one of the ten digit characters. -/
theorem natStr_chars_mem (n : Nat) :
    ∀ c ∈ (natStr n).data, ∃ d, d < 10 ∧ c = Nat.digitChar d := by
  rcases Nat.eq_zero_or_pos n with h | h
  · subst h
    intro c hc
    refine ⟨0, by omega, ?_⟩
    simpa [natStr, natStrGo] using hc
  · intro c hc
    rw [natStr_eq_digits n h] at hc
    simp only [String.mk] at hc
    rw [List.mem_reverse, List.mem_map] at hc
    obtain ⟨d, hd, rfl⟩ := hc
    exact ⟨d, Nat.digits_lt_base (by norm_num) hd, rfl⟩

/-! ### Token sanitization (`_sanitize_token` in `app/api.py`) -/

/-- Embedding of `_sanitize_token`: lowercase, then keep only alphanumeric
characters, dashes and underscores. -/
def sanitizeToken (s : String) : String :=
  String.mk ((s.data.map Char.toLower).filter
    (fun c => c.isAlphanum || c == '-' || c == '_'))

theorem digitChar_sanitize_fixed :
    ∀ d < 10, (Nat.digitChar d).toLower = Nat.digitChar d ∧
      ((Nat.digitChar d).isAlphanum || Nat.digitChar d == '-' || Nat.digitChar d == '_')
        = true := by
  decide

theorem filter_map_toLower_fixed (pred : Char → Bool) (l : List Char)
    (h : ∀ c ∈ l, c.toLower = c ∧ pred c = true) :
    (l.map Char.toLower).filter pred = l := by
  induction l with
  | nil => rfl
  | cons a t ih =>
    obtain ⟨h1, h2⟩ := h a (by simp)
    simp only [List.map_cons, List.filter_cons, h1, h2, if_true]
    rw [ih (fun c hc => h c (by simp [hc]))]

/-- Sanitization leaves a decimal number string unchanged. -/
theorem sanitizeToken_natStr (n : Nat) : sanitizeToken (natStr n) = natStr n := by
  unfold sanitizeToken
  rw [filter_map_toLower_fixed]
  intro c hc
  obtain ⟨d, hd, rfl⟩ := natStr_chars_mem n c hc
  exact digitChar_sanitize_fixed d hd

/-! ### Derived publish identifier (`_derive_sanitized_username`) -/

/-- Embedding of Python `email.split('@', 1)[0]`: the characters before the
first `'@'` (the whole string when no `'@'` occurs). -/
def localPart (e : String) : String :=
  String.mk (e.data.takeWhile (fun c => c != '@'))

/-- Embedding of `_derive_sanitized_username`: base is the raw email
local-part when the email contains `'@'`; when that base is empty (no
usable email) the base is `str(user.id)`; the base is then sanitized and
an empty sanitization yields `"public"`. -/
def deriveSanitizedUsername (u : AppUser) : String :=
  let base : String :=
    match u.email with
    | some e => if e.data.contains '@' then localPart e else ""
    | none => ""
  let base : String := if base = "" then natStr u.id else base
  let s := sanitizeToken base
  if s = "" then "public" else s

/-! ### Session registry (`SESSIONS`, `login`, `logout`, `require_user`) -/

/-- The in-process `SESSIONS` dict, token to user id. -/
abbrev Sessions := List (String × Nat)

def sessLookup : Sessions → String → Option Nat
  | [], _ => none
  | p :: t, tok => if p.1 = tok then some p.2 else sessLookup t tok

def sessRemove : Sessions → String → Sessions
  | [], _ => []
  | p :: t, tok => if p.1 = tok then sessRemove t tok else p :: sessRemove t tok

/-- Python dict assignment `SESSIONS[token] = uid`. -/
def sessInsert (st : Sessions) (tok : String) (uid : Nat) : Sessions :=
  (tok, uid) :: sessRemove st tok

def liveTokens (st : Sessions) : List String := st.map (fun p => p.1)

/-- Embedding of the token f-string in `login`:
`f"token-{user.id}-{int(datetime.utcnow().timestamp())}"`. -/
def issueToken (uid ts : Nat) : String :=
  "token-" ++ natStr uid ++ "-" ++ natStr ts

/-- The token-issuing tail of `login` (after credential validation): mint
the token for the current clock second and store the binding. -/
def loginIssue (st : Sessions) (uid ts : Nat) : Sessions × String :=
  let tok := issueToken uid ts
  (sessInsert st tok uid, tok)

/-- Embedding of `logout`: `SESSIONS.pop(token, None)` on the presented
token (header or query parameter), always answering success. -/
def logout (st : Sessions) (token : Option String) : Sessions × Bool :=
  match token with
  | none => (st, true)
  | some tok => (sessRemove st tok, true)

/-- Authentication outcomes of the `require_user` decorator. -/
inductive AuthOutcome where
  | authed (u : AppUser)
  | denied (msg : String)
deriving DecidableEq

def findUserById (users : List AppUser) (uid : Nat) : Option AppUser :=
  users.find? (fun u => u.id == uid)

/-- Embedding of `require_user`: ambient Flask-Login identity first, then
the bearer token from the `Authorization` header or `token` query
parameter; any failure is the uniform 401 `authentication required`. -/
def requireUser (ambient : Option AppUser) (token : Option String)
    (st : Sessions) (users : List AppUser) : AuthOutcome :=
  match ambient with
  | some u => .authed u
  | none =>
    match token with
    | none => .denied "authentication required"
    | some tok =>
      if tok = "" then .denied "authentication required"
      else
        match sessLookup st tok with
        | none => .denied "authentication required"
        | some uid =>
          match findUserById users uid with
          | none => .denied "authentication required"
          | some u => .authed u

/-! ### Structure of issued tokens -/

theorem digitChar_ne_dash : ∀ d < 10, Nat.digitChar d ≠ '-' := by decide

theorem natStr_no_dash (n : Nat) : '-' ∉ (natStr n).data := by
  intro hmem
  obtain ⟨d, hd, hc⟩ := natStr_chars_mem n '-' hmem
  exact digitChar_ne_dash d hd hc.symm

/-- Splitting at a separator absent from both left parts is unambiguous. -/
theorem append_dash_inj :
    ∀ (a c b d : List Char), '-' ∉ a → '-' ∉ c →
      a ++ '-' :: b = c ++ '-' :: d → a = c ∧ b = d := by
  intro a
  induction a with
  | nil =>
    intro c b d _ hc h
    cases c with
    | nil => simpa using h
    | cons x xs =>
      simp only [List.nil_append, List.cons_append, List.cons.injEq] at h
      exact absurd (h.1 ▸ List.mem_cons_self x xs) hc
  | cons x xs ih =>
    intro c b d ha hc h
    cases c with
    | nil =>
      simp only [List.cons_append, List.nil_append, List.cons.injEq] at h
      exact absurd (h.1.symm ▸ List.mem_cons_self x xs) ha
    | cons y ys =>
      simp only [List.cons_append, List.cons.injEq] at h
      have ha' : '-' ∉ xs := fun hxs => ha (List.mem_cons_of_mem x hxs)
      have hc' : '-' ∉ ys := fun hys => hc (List.mem_cons_of_mem y hys)
      obtain ⟨h1, h2⟩ := ih ys b d ha' hc' h.2
      exact ⟨by rw [h.1, h1], h2⟩

theorem issueToken_inj (u₁ t₁ u₂ t₂ : Nat)
    (h : issueToken u₁ t₁ = issueToken u₂ t₂) : u₁ = u₂ ∧ t₁ = t₂ := by
  have hdata : "token-".data ++ ((natStr u₁).data ++ '-' :: (natStr t₁).data)
      = "token-".data ++ ((natStr u₂).data ++ '-' :: (natStr t₂).data) := by
    have := congrArg String.data h
    simpa [issueToken, String.data_append, List.append_assoc] using this
  have hcore := List.append_cancel_left hdata
  obtain ⟨h1, h2⟩ := append_dash_inj _ _ _ _ (natStr_no_dash u₁) (natStr_no_dash u₂) hcore
  exact ⟨natStr_inj u₁ u₂ (String.ext h1), natStr_inj t₁ t₂ (String.ext h2)⟩

/-! ### Session registry lemmas -/

theorem sessLookup_remove (st : Sessions) (tok : String) :
    sessLookup (sessRemove st tok) tok = none := by
  induction st with
  | nil => rfl
  | cons p t ih =>
    by_cases hp : p.1 = tok
    · simpa [sessRemove, hp] using ih
    · simpa [sessRemove, sessLookup, hp] using ih

theorem sessRemove_idem (st : Sessions) (tok : String) :
    sessRemove (sessRemove st tok) tok = sessRemove st tok := by
  induction st with
  | nil => rfl
  | cons p t ih =>
    by_cases hp : p.1 = tok
    · simpa [sessRemove, hp] using ih
    · simp [sessRemove, hp, ih]

theorem sessRemove_absent (st : Sessions) (tok : String)
    (h : sessLookup st tok = none) : sessRemove st tok = st := by
  induction st with
  | nil => rfl
  | cons p t ih =>
    by_cases hp : p.1 = tok
    · simp [sessLookup, hp] at h
    · simp only [sessLookup, hp, if_neg, ite_false] at h
      simp [sessRemove, hp, ih h]

theorem sessLookup_insert (st : Sessions) (tok : String) (uid : Nat) :
    sessLookup (sessInsert st tok uid) tok = some uid := by
  simp [sessLookup, sessInsert]

theorem sessLookup_remove_ne (st : Sessions) (tok tok' : String)
    (h : tok' ≠ tok) : sessLookup (sessRemove st tok) tok' = sessLookup st tok' := by
  induction st with
  | nil => rfl
  | cons p t ih =>
    by_cases hp : p.1 = tok
    · simp [sessRemove, sessLookup, hp, Ne.symm h, ih]
    · by_cases hq : p.1 = tok'
      · simp [sessRemove, sessLookup, hp, hq, h]
      · simp [sessRemove, sessLookup, hp, hq, ih]

theorem sessLookup_insert_ne (st : Sessions) (tok tok' : String) (uid : Nat)
    (h : tok' ≠ tok) : sessLookup (sessInsert st tok uid) tok' = sessLookup st tok' := by
  have hne : tok ≠ tok' := fun he => h he.symm
  simp only [sessInsert, sessLookup, hne, if_neg, ite_false]
  exact sessLookup_remove_ne st tok tok' h

/-! ### Resource data model (`app/models.py`) -/

/-- A row of the `decks` table. The `created_at` column is carried as its
`isoformat()` rendering, which is all `to_dict` exposes. -/
structure Deck where
  id : Nat
  name : String
  description : Option String
  ownerId : Nat
  nodes : List JVal
  createdAt : String

/-- A row of the `routines` table. -/
structure Routine where
  id : Nat
  name : String
  nodes : List JVal
  deckOrder : Option (List JVal)
  stack : Option String
  deckId : Option Nat
  ownerId : Nat
  createdAt : String
  lastRunAt : Option String

/-- A row of the `actuar` table. -/
structure ActuarRow where
  userId : Nat
  text : String
  updatedAt : Option String
deriving DecidableEq

def jOptStr : Option String → JVal
  | some s => .jstr s
  | none => .jnull

/-- Embedding of `Deck.to_dict`. -/
def Deck.toDict (d : Deck) : List (String × JVal) :=
  [("id", .jstr (natStr d.id)),
   ("name", .jstr d.name),
   ("description", jOptStr d.description),
   ("owner_id", .jint d.ownerId),
   ("nodes", .jarr d.nodes),
   ("created_at", .jstr d.createdAt)]

/-- Embedding of `Routine.to_dict`. -/
def Routine.toDict (r : Routine) : List (String × JVal) :=
  [("id", .jstr (natStr r.id)),
   ("name", .jstr r.name),
   ("stack", jOptStr r.stack),
   ("deck_id", match r.deckId with
               | some i => .jstr (natStr i)
               | none => .jnull),
   ("nodes", .jarr r.nodes),
   ("deck_order", .jarr (r.deckOrder.getD [])),
   ("owner_id", .jint r.ownerId),
   ("created_at", .jstr r.createdAt),
   ("last_run_at", jOptStr r.lastRunAt)]

/-- Embedding of `Actuar.to_dict`. -/
def ActuarRow.toDict (row : ActuarRow) (username : String) : List (String × JVal) :=
  [("user_id", .jint row.userId),
   ("username", .jstr username),
   ("text", .jstr row.text),
   ("updated_at", jOptStr row.updatedAt)]

/-! ### Ownership-scoped CRUD endpoints (`app/api.py`) -/

/-- The deck and routine tables visible to the CRUD endpoints. -/
structure AppDB where
  decks : List Deck
  routines : List Routine

/-- HTTP responses of the JSON API endpoints. -/
inductive ApiResp where
  | ok (body : JVal)
  | created (body : JVal)
  | badRequest (msg : String)
  | notFound (msg : String)
  | serverError (msg : String)

/-- `db.session.query(Deck).filter_by(id=deck_id, owner_id=caller).first()`. -/
def findOwnedDeck (db : AppDB) (callerId deckId : Nat) : Option Deck :=
  db.decks.find? (fun d => d.id == deckId && d.ownerId == callerId)

/-- `db.session.query(Routine).filter_by(id=routine_id, owner_id=caller).first()`. -/
def findOwnedRoutine (db : AppDB) (callerId routineId : Nat) : Option Routine :=
  db.routines.find? (fun r => r.id == routineId && r.ownerId == callerId)

def replaceDeck (ds : List Deck) (d : Deck) : List Deck :=
  ds.map (fun x => if x.id == d.id then d else x)

def replaceRoutine (rs : List Routine) (r : Routine) : List Routine :=
  rs.map (fun x => if x.id == r.id then r else x)

/-- Request body of `PUT /decks/<id>`: `none` means the key was absent.
A doubly-optional field distinguishes an absent key from a JSON `null`. -/
structure DeckPatch where
  name : Option String := none
  description : Option (Option String) := none
  nodes : Option JVal := none

/-- Request body of `PUT /routines/<id>`. -/
structure RoutinePatch where
  name : Option String := none
  stack : Option (Option String) := none
  nodes : Option JVal := none
  deckOrder : Option JVal := none
  deckId : Option (Option Nat) := none

/-- Embedding of `get_deck`. -/
def getDeck (db : AppDB) (callerId deckId : Nat) : ApiResp × AppDB :=
  match findOwnedDeck db callerId deckId with
  | none => (.notFound "not found", db)
  | some d => (.ok (.jobj d.toDict), db)

/-- Embedding of `update_deck`: partial-field update, `nodes` must be a
list when present, commit replaces the found row. -/
def updateDeck (db : AppDB) (callerId deckId : Nat) (p : DeckPatch) : ApiResp × AppDB :=
  match findOwnedDeck db callerId deckId with
  | none => (.notFound "not found", db)
  | some d =>
    let d := { d with
      name := p.name.getD d.name,
      description := match p.description with
                     | some v => v
                     | none => d.description }
    match p.nodes with
    | some (.jarr ns) =>
      let d := { d with nodes := ns }
      (.ok (.jobj d.toDict), { db with decks := replaceDeck db.decks d })
    | some _ => (.badRequest "nodes must be a list", db)
    | none => (.ok (.jobj d.toDict), { db with decks := replaceDeck db.decks d })

/-- Embedding of `delete_deck`: the found row is deleted by primary key. -/
def deleteDeck (db : AppDB) (callerId deckId : Nat) : ApiResp × AppDB :=
  match findOwnedDeck db callerId deckId with
  | none => (.notFound "not found", db)
  | some _ =>
    (.ok (.jobj [("success", .jbool true)]),
     { db with decks := db.decks.filter (fun x => x.id != deckId) })

/-- Embedding of `get_routine`. -/
def getRoutine (db : AppDB) (callerId routineId : Nat) : ApiResp × AppDB :=
  match findOwnedRoutine db callerId routineId with
  | none => (.notFound "not found", db)
  | some r => (.ok (.jobj r.toDict), db)

def applyNodesPatch (r : Routine) : Option JVal → Except String Routine
  | none => .ok r
  | some (.jarr ns) => .ok { r with nodes := ns }
  | some _ => .error "nodes must be a list"

def applyDeckOrderPatch (r : Routine) : Option JVal → Except String Routine
  | none => .ok r
  | some .jnull => .ok { r with deckOrder := none }
  | some (.jarr l) => .ok { r with deckOrder := some l }
  | some _ => .error "deck_order must be a list"

/-- Embedding of `update_routine`: partial fields; `nodes` and
`deck_order` must be lists when present; a truthy new `deck_id` must
resolve to a deck owned by the caller. -/
def updateRoutine (db : AppDB) (callerId routineId : Nat) (p : RoutinePatch) :
    ApiResp × AppDB :=
  match findOwnedRoutine db callerId routineId with
  | none => (.notFound "not found", db)
  | some r0 =>
    let commit := fun (r : Routine) =>
      ((ApiResp.ok (.jobj r.toDict)), { db with routines := replaceRoutine db.routines r })
    let r1 := { r0 with
      name := p.name.getD r0.name,
      stack := match p.stack with
               | some v => v
               | none => r0.stack }
    match applyNodesPatch r1 p.nodes with
    | .error e => (.badRequest e, db)
    | .ok r2 =>
      match applyDeckOrderPatch r2 p.deckOrder with
      | .error e => (.badRequest e, db)
      | .ok r3 =>
        match p.deckId with
        | none => commit r3
        | some (some i) =>
          if i ≠ 0 then
            match db.decks.find? (fun d => d.id == i && d.ownerId == callerId) with
            | none => (.notFound "deck not found or unauthorized", db)
            | some _ => commit { r3 with deckId := some i }
          else commit { r3 with deckId := some 0 }
        | some none => commit { r3 with deckId := none }

/-- Embedding of `delete_routine`. -/
def deleteRoutine (db : AppDB) (callerId routineId : Nat) : ApiResp × AppDB :=
  match findOwnedRoutine db callerId routineId with
  | none => (.notFound "not found", db)
  | some _ =>
    (.ok (.jobj [("success", .jbool true)]),
     { db with routines := db.routines.filter (fun x => x.id != routineId) })

/-! ### Static artifact sink (`_write_actuar_static`) -/

/-- The `static/actuar` directory: file name to file content. -/
abbrev FS := List (String × String)

def fsWrite (fs : FS) (fname content : String) : FS :=
  (fname, content) :: fs.filter (fun p => p.1 != fname)

/-- Embedding of Python `html.escape` (with quoting, the default). -/
def escChar (c : Char) : List Char :=
  if c == '&' then "&amp;".data
  else if c == '<' then "&lt;".data
  else if c == '>' then "&gt;".data
  else if c == '"' then "&quot;".data
  else if c == '\'' then "&#x27;".data
  else [c]

def htmlEscape (s : String) : String :=
  String.mk (s.data.map escChar).flatten

/-- The HTML document written by `_write_actuar_static`. -/
def actuarHtmlDoc (username escText : String) : String :=
  "<!DOCTYPE html><html lang=\"en\"><head><meta charset=\"utf-8\">"
  ++ "<title>actuar — " ++ htmlEscape username ++ "</title>"
  ++ "<meta name=\"viewport\" content=\"width=device-width, initial-scale=1\">"
  ++ "<style>body\x7bfont-family:system-ui,-apple-system,Segoe UI,Roboto,Arial,sans-serif;margin:2rem;max-width:60ch;line-height:1.5\x7dpre\x7bwhite-space:pre-wrap;word-wrap:break-word;background:#f6f8fa;padding:1rem;border-radius:8px\x7d</style>"
  ++ "</head><body>"
  ++ "<h1>actuar: " ++ htmlEscape username ++ "</h1>"
  ++ "<pre>" ++ escText ++ "</pre>"
  ++ "</body></html>"

/-- Result dict of `_write_actuar_static`: a `url` key on success, an
`error` key when the filesystem raised. -/
inductive StaticResult where
  | url (u : String)
  | error (msg : String)
deriving DecidableEq

/-- Embedding of `_write_actuar_static`. `writeFails` stands for the
filesystem exception the Python code catches: `some msg` means the write
raised with message `msg` before any file landed on disk. -/
def writeActuarStatic (fs : FS) (writeFails : Option String) (username text : String) :
    FS × StaticResult :=
  match writeFails with
  | some msg => (fs, .error msg)
  | none =>
    let s := sanitizeToken username
    let u := if s = "" then "public" else s
    let doc := actuarHtmlDoc u (htmlEscape text)
    (fsWrite fs (u ++ ".html") doc, .url ("/static/actuar/" ++ u ++ ".html"))

/-! ### Single-value publish (`post_actuar`) -/

abbrev ActuarDB := List ActuarRow

def findActuar (adb : ActuarDB) (uid : Nat) : Option ActuarRow :=
  adb.find? (fun row => row.userId == uid)

/-- Upsert of the user's unique `actuar` row; `now` is the server
timestamp `updated_at` is refreshed to. -/
def upsertActuar (adb : ActuarDB) (uid : Nat) (text : String) (now : String) : ActuarDB :=
  match findActuar adb uid with
  | some _ => adb.map (fun row =>
      if row.userId == uid then { row with text := text, updatedAt := some now } else row)
  | none => adb ++ [⟨uid, text, some now⟩]

inductive ActuarResp where
  | badRequest (msg : String)
  | serverError (msg : String)
  | success (text : String) (updatedAt : Option String) (static : StaticResult)
deriving DecidableEq

/-- Embedding of `post_actuar`: upsert the row, commit, then write the
static artifact best-effort. `commitFails` stands for a database commit
exception; `writeFails` for a filesystem exception. -/
def postActuar (adb : ActuarDB) (fs : FS) (u : AppUser) (text : Option String)
    (commitFails : Bool) (writeFails : Option String) (now : String) :
    ActuarResp × ActuarDB × FS :=
  match text with
  | none => (.badRequest "text required", adb, fs)
  | some t =>
    let adb2 := upsertActuar adb u.id t now
    if commitFails then (.serverError "failed to save", adb, fs)
    else
      let sanUser := deriveSanitizedUsername u
      let (fs2, st) := writeActuarStatic fs writeFails sanUser t
      (.success t (some now) st, adb2, fs2)

/-! ### Two-phase publish (`actuar2_init`, `actuar2_post`) -/

/-- The in-process `ACTUAR2_VALUES` dict, user id to permitted-token set
(held as the list Python's `set` construction deduplicates). -/
abbrev A2State := List (Nat × List String)

def a2Get : A2State → Nat → Option (List String)
  | [], _ => none
  | p :: t, uid => if p.1 = uid then some p.2 else a2Get t uid

def a2Remove : A2State → Nat → A2State
  | [], _ => []
  | p :: t, uid => if p.1 = uid then a2Remove t uid else p :: a2Remove t uid

/-- Python dict assignment `ACTUAR2_VALUES[uid] = s`. -/
def a2Set (st : A2State) (uid : Nat) (vals : List String) : A2State :=
  (uid, vals) :: a2Remove st uid

/-- A JSON array entry as `actuar2_init` sees it: a string or anything
else (`isinstance(v, str)` is the only shape the code distinguishes). -/
inductive JItem where
  | str (s : String)
  | other
deriving DecidableEq

/-- The validation loop of `actuar2_init`: first non-string or
empty-sanitization entry aborts with its error message. -/
def cleanValues : List JItem → Except String (List String)
  | [] => .ok []
  | .other :: _ => .error "all values must be strings"
  | .str v :: rest =>
    let sv := sanitizeToken v
    if sv = "" then .error ("invalid value: " ++ v)
    else
      match cleanValues rest with
      | .error e => .error e
      | .ok tl => .ok (sv :: tl)

/-- Insertion sort on strings, the order `sorted` uses. -/
def insertStr (x : String) : List String → List String
  | [] => [x]
  | y :: ys => if x ≤ y then x :: y :: ys else y :: insertStr x ys

def sortStrs (l : List String) : List String := l.foldr insertStr []

/-- Python `sorted(set(cleaned))`: deduplicate, then sort. -/
def sortedSet (l : List String) : List String := sortStrs l.dedup

inductive InitResp where
  | badRequest (msg : String)
  | success (values : List String)
deriving DecidableEq

/-- Embedding of `actuar2_init` for a request whose `values` field is the
given JSON list (a falsy or non-list field yields the same 400 as the
empty list). -/
def actuar2Init (st : A2State) (uid : Nat) (values : List JItem) : InitResp × A2State :=
  if values.isEmpty then
    (.badRequest "values must be a non-empty list of strings", st)
  else
    match cleanValues values with
    | .error e => (.badRequest e, st)
    | .ok cleaned =>
      let s := sortedSet cleaned
      (.success s, a2Set st uid s)

inductive A2PostResp where
  | badRequest (msg : String)
  | serverError (msg : String)
  | success (value : String) (static : StaticResult)
deriving DecidableEq

def a2NotInitializedMsg : String :=
  "value not initialized for user. Call /api/actuar2/init first."

/-- Python truthiness of an optional string field: the empty string is
falsy, so a key-extraction `or` chain turns it into a missing value. -/
def normNonEmpty : Option String → Option String
  | some s => if s = "" then none else some s
  | none => none

/-- The `if not allowed or sv not in allowed` guard of `actuar2_post`. -/
def a2AllowedB (st : A2State) (uid : Nat) (sv : String) : Bool :=
  match a2Get st uid with
  | none => false
  | some l => !l.isEmpty && l.contains sv

/-- Embedding of `actuar2_post`. -/
def actuar2Post (st : A2State) (fs : FS) (u : AppUser)
    (value : Option String) (text : Option String) (writeFails : Option String) :
    A2PostResp × FS :=
  match normNonEmpty value, text with
  | none, _ => (.badRequest "value and text are required", fs)
  | some _, none => (.badRequest "value and text are required", fs)
  | some v, some t =>
    let sv := sanitizeToken v
    if sv = "" then
      (.badRequest "value must include letters, digits, dash or underscore", fs)
    else
      if a2AllowedB st u.id sv then
        let combined := deriveSanitizedUsername u ++ "_" ++ sv
        let (fs2, res) := writeActuarStatic fs writeFails combined t
        match res with
        | .error e => (.serverError e, fs2)
        | .url _ => (.success sv res, fs2)
      else (.badRequest a2NotInitializedMsg, fs)

/-! ### Public lookup (`get_actuar_public`) -/

/-- Python `str.lower()` at ASCII precision (and SQL `lower`). -/
def strLower (s : String) : String :=
  String.mk (s.data.map Char.toLower)

/-- Python `str.strip()`: drop surrounding whitespace. -/
def pyStrip (s : String) : String :=
  String.mk (((s.data.dropWhile Char.isWhitespace).reverse.dropWhile Char.isWhitespace).reverse)

/-- All suffixes of a character list, longest first. -/
def tails : List Char → List (List Char)
  | [] => [[]]
  | c :: ts => (c :: ts) :: tails ts

/-- SQL `LIKE` on already-lowercased operands: `%` matches any run of
characters (the rest of the pattern must match some suffix), `_` matches
exactly one character, everything else is literal. -/
def likeMatch : List Char → List Char → Bool
  | [], t => t.isEmpty
  | a :: ps, t =>
    if a = '%' then (tails t).any (fun s => likeMatch ps s)
    else if a = '_' then
      match t with
      | [] => false
      | _ :: ts => likeMatch ps ts
    else
      match t with
      | [] => false
      | c :: ts => a == c && likeMatch ps ts

def charsStartWith : List Char → List Char → Bool
  | [], _ => true
  | _ :: _, [] => false
  | a :: ps, b :: ss => a == b && charsStartWith ps ss

/-- Responses of the public `GET /actuar/<username>` endpoint: the two
error shapes, the null-text shape for a user who never published, and the
serialized publish record. -/
inductive PublicResp where
  | badRequest (msg : String)
  | notFoundErr (msg : String)
  | noRecord (username : String)
  | record (userId : Nat) (username : String) (text : String) (updatedAt : Option String)
deriving DecidableEq

def emailLowerEq (q : String) (u : AppUser) : Bool :=
  match u.email with
  | some e => strLower e == strLower q
  | none => false

def usernameLowerEq (q : String) (u : AppUser) : Bool :=
  match u.username with
  | some un => strLower un == strLower q
  | none => false

def emailLikeLocal (q : String) (u : AppUser) : Bool :=
  match u.email with
  | some e => likeMatch ((strLower q).data ++ '@' :: ['%']) (strLower e).data
  | none => false

/-- Embedding of `get_actuar_public`: strip, then the three resolution
attempts in order — exact email, exact stored username, and (only for a
local-part style identifier without `'@'`) the SQL `LIKE` pattern
`q.lower() + "@%"` against lowered emails. -/
def resolvePublish (users : List AppUser) (adb : ActuarDB) (username : String) :
    PublicResp :=
  if username = "" then .badRequest "username required"
  else
    let q := pyStrip username
    if q = "" then .badRequest "username required"
    else
      let step1 := users.find? (emailLowerEq q)
      let step2 := step1 <|> users.find? (usernameLowerEq q)
      let user := if step2.isNone && !q.data.contains '@'
                  then users.find? (emailLikeLocal q)
                  else step2
      match user with
      | none => .notFoundErr "user not found"
      | some u =>
        match findActuar adb u.id with
        | none => .noRecord username
        | some row => .record row.userId username row.text row.updatedAt

/-! ### Registration and initial-routine seeding (`register`, `app/defaults.py`) -/

/-- One node descriptor from `INITIAL_ROUTINES`. -/
structure SeedNode where
  id : String
  type : String
  config : List (String × JVal)

/-- One entry of `INITIAL_ROUTINES`. -/
structure SeedRoutine where
  id : String
  name : String
  stack : String
  nodes : List SeedNode

def SeedNode.toJVal (n : SeedNode) : JVal :=
  .jobj [("id", .jstr n.id), ("type", .jstr n.type), ("config", .jobj n.config)]

/-- The literal `INITIAL_ROUTINES` list of `app/defaults.py`. -/
def INITIAL_ROUTINES : List SeedRoutine :=
  [{ id := "1",
     name := "Magia de Cerca con Cartas",
     stack := "Orden1",
     nodes :=
       [{ id := "n1", type := "Iniciar",
          config := [("startMessage", .jstr "Estoy listo para hacer magia."),
                     ("personality", .jstr "Sé muy sarcástico. Actúa como un ser superior al humano.")] },
        { id := "n2", type := "Encontrar una Carta",
          config := [("invertCount", .jbool false),
                     ("response", .jstr "La carta que buscas, el \x7bcarta\x7d, creo que la encontrarás si cuentas \x7bposicion\x7d cartas.")] },
        { id := "n3", type := "Pesar Cartas",
          config := [("invertCount", .jbool false),
                     ("response", .jstr "Soy omnipresente, siento 34 gramos, es decir \x7bcantidad\x7d cartas.")] },
        { id := "n4", type := "Coincidencia Absoluta",
          config := [("revealIntro", .jstr "Observa a tu alrededor, la respuesta está en todas partes...")] }] },
   { id := "2",
     name := "Camareando",
     stack := "Orden2",
     nodes :=
       [{ id := "n7", type := "Iniciar",
          config := [("startMessage", .jstr "Estoy lista para hacer magia!"),
                     ("personality", .jstr "Sé muy sarcástico. Actúa como un ser superior al humano.")] },
        { id := "n8", type := "Capturar Imagen",
          config := [("instructions", .jstr "Es elemental saber que ibas a sacar una carta de \x7bpalo\x7d."),
                     ("cameraType", .jstr "front")] },
        { id := "n9", type := "Capturar Imagen",
          config := [("instructions", .jstr "No entienden que soy superior? una carta no es desafío. sacaron \x7bcarta\x7d."),
                     ("cameraType", .jstr "front")] },
        { id := "n10", type := "Capturar Imagen",
          config := [("instructions", .jstr "Tienes que crear una imagen de poster de pelicula que se adecué a la descripción, donde se le indicará quién, dónde, y haciendo qué. Cree la foto y responda con algo similar a: \"No solo puedo imaginar una escena, te hago el poster de la película y todo.\""),
                     ("cameraType", .jstr "front")] }] }]

/-- The seeding loop of `register`: one `Routine` row per entry, with
`deck_id=None`, `owner_id` the new user; the entry's `id` is never read
(database-assigned ids start at `startId`). -/
def seedRoutines (entries : List SeedRoutine) (uid : Nat) (now : String)
    (startId : Nat) : List Routine :=
  match entries with
  | [] => []
  | r :: rest =>
    { id := startId,
      name := r.name,
      nodes := r.nodes.map SeedNode.toJVal,
      deckOrder := none,
      stack := some r.stack,
      deckId := none,
      ownerId := uid,
      createdAt := now,
      lastRunAt := none } :: seedRoutines rest uid now (startId + 1)

inductive RegisterResp where
  | badRequest (msg : String)
  | created (id : Nat) (email : String)
  | serverError (msg : String)
deriving DecidableEq

/-- Embedding of `register`: required fields, case-sensitive duplicate
check, user creation (`username = email`), then best-effort seeding whose
failure (`seedFails`) rolls the seed transaction back but still answers
201. -/
def register (users : List AppUser) (routines : List Routine)
    (email password : Option String) (newUserId seedStartId : Nat) (now : String)
    (seedFails : Bool) : RegisterResp × List AppUser × List Routine :=
  match normNonEmpty email, normNonEmpty password with
  | none, _ => (.badRequest "email and password required", users, routines)
  | some _, none => (.badRequest "email and password required", users, routines)
  | some e, some _ =>
    if (users.find? (fun u => u.email == some e)).isSome then
      (.badRequest "email already registered", users, routines)
    else
      let newUser : AppUser := { id := newUserId, email := some e, username := some e }
      let users2 := users ++ [newUser]
      let routines2 :=
        if seedFails then routines
        else routines ++ seedRoutines INITIAL_ROUTINES newUserId now seedStartId
      (.created newUserId e, users2, routines2)

/-! ### Sanitization idempotence -/

theorem char_toNat_ofNat_valid (n : Nat) (h : n.isValidChar) :
    (Char.ofNat n).toNat = n := by
  unfold Char.ofNat
  rw [dif_pos h]
  unfold Char.ofNatAux
  rfl

theorem toLower_idem (c : Char) : c.toLower.toLower = c.toLower := by
  by_cases h : c.toNat ≥ 65 ∧ c.toNat ≤ 90
  · have hval : (c.toNat + 32).isValidChar := Or.inl (by omega)
    have htn : (Char.ofNat (c.toNat + 32)).toNat = c.toNat + 32 :=
      char_toNat_ofNat_valid _ hval
    have h1 : c.toLower = Char.ofNat (c.toNat + 32) := by
      unfold Char.toLower
      rw [if_pos h]
    rw [h1]
    unfold Char.toLower
    rw [htn, if_neg (by omega)]
  · have h1 : c.toLower = c := by
      unfold Char.toLower
      rw [if_neg h]
    rw [h1, h1]

theorem sanitizeToken_idem (s : String) :
    sanitizeToken (sanitizeToken s) = sanitizeToken s := by
  show sanitizeToken (String.mk _) = _
  unfold sanitizeToken
  congr 1
  rw [filter_map_toLower_fixed]
  intro c hc
  have hpred := (List.mem_filter.mp hc).2
  have hmem := (List.mem_filter.mp hc).1
  obtain ⟨c₀, _, rfl⟩ := List.mem_map.mp hmem
  exact ⟨toLower_idem c₀, hpred⟩

/-- The derived publish identifier re-sanitizes to itself and is never
empty, so the artifact file written for a user always lands at the
location named by the identifier. -/
theorem derive_sanitize_fixed (u : AppUser) :
    sanitizeToken (deriveSanitizedUsername u) = deriveSanitizedUsername u ∧
    deriveSanitizedUsername u ≠ "" := by
  unfold deriveSanitizedUsername
  set base1 : String :=
    (match u.email with
     | some e => if e.data.contains '@' then localPart e else ""
     | none => "") with hbase1
  set base2 : String := if base1 = "" then natStr u.id else base1 with hbase2
  by_cases hs : sanitizeToken base2 = ""
  · simp only [hs, if_pos rfl]
    exact ⟨by decide, by decide⟩
  · simp only [if_neg hs]
    exact ⟨sanitizeToken_idem base2, hs⟩

/-! ### Formalization of claim C6's stated identifier rule -/

/-- Modelled from the claim C6 wording (not from the source): prefer the
sanitized email local-part when the email contains `'@'` and that
sanitization is non-empty; otherwise fall back to the user id string. -/
def claimDerivedIdentifier (u : AppUser) : String :=
  match u.email with
  | some e =>
    if e.data.contains '@' && (sanitizeToken (localPart e) != "") then
      sanitizeToken (localPart e)
    else natStr u.id
  | none => natStr u.id

/-- The corrected identifier rule: the user-id fallback happens only when
there is no email local-part at all; a non-empty local-part that
sanitizes to nothing yields the placeholder directly. -/
def amendedDerivedIdentifier (u : AppUser) : String :=
  match u.email with
  | some e =>
    if e.data.contains '@' && (localPart e != "") then
      (if sanitizeToken (localPart e) = "" then "public" else sanitizeToken (localPart e))
    else
      (if sanitizeToken (natStr u.id) = "" then "public" else sanitizeToken (natStr u.id))
  | none =>
    if sanitizeToken (natStr u.id) = "" then "public" else sanitizeToken (natStr u.id)

/-- C6 counterexample: user 7 with email `"!!!@x.com"` has a non-empty
local-part that sanitizes to nothing; the code derives `"public"`, not
the claim's user-id fallback `"7"`. -/
theorem derive_username_counterexample :
    deriveSanitizedUsername ⟨7, some "!!!@x.com", none⟩ = "public" ∧
    claimDerivedIdentifier ⟨7, some "!!!@x.com", none⟩ = "7" ∧
    deriveSanitizedUsername ⟨7, some "!!!@x.com", none⟩
      ≠ claimDerivedIdentifier ⟨7, some "!!!@x.com", none⟩ := by
  refine ⟨by decide, by decide, by decide⟩

/-- C6 (amended): the derived identifier equals the corrected rule for
every user, and it is a fixed point of sanitization and non-empty, so
every publish by the same unchanged user writes the same artifact file
`identifier.html` (deterministic, overwriting location). -/
theorem derive_username_amended (u : AppUser) (fs : FS) (t : String) :
    deriveSanitizedUsername u = amendedDerivedIdentifier u ∧
    writeActuarStatic fs none (deriveSanitizedUsername u) t
      = (fsWrite fs (deriveSanitizedUsername u ++ ".html")
           (actuarHtmlDoc (deriveSanitizedUsername u) (htmlEscape t)),
         .url ("/static/actuar/" ++ deriveSanitizedUsername u ++ ".html")) := by
  obtain ⟨hfix, hne⟩ := derive_sanitize_fixed u
  constructor
  · unfold deriveSanitizedUsername amendedDerivedIdentifier
    rcases u with ⟨uid, em, un⟩
    cases em with
    | none => simp
    | some e =>
      by_cases hat : '@' ∈ e.data
      · by_cases hlp : localPart e = ""
        · simp [hat, hlp]
        · simp [hat, hlp]
      · simp [hat]
  · unfold writeActuarStatic
    rw [hfix]
    simp [hne]

/-! ### Claim C1: ownership scoping of deck/routine read, update, delete -/

/-- C1: for an authenticated caller, a deck/routine id whose rows are all
owned by someone else is handled exactly like a nonexistent id: every one
of the six by-id operations answers 404 `not found` and leaves the
database untouched, so an ownership mismatch is indistinguishable from
non-existence. -/
theorem deck_routine_ownership_scoping (db : AppDB) (caller rid : Nat)
    (pD : DeckPatch) (pR : RoutinePatch)
    (hd : ∀ d ∈ db.decks, ¬(d.id = rid ∧ d.ownerId = caller))
    (hr : ∀ r ∈ db.routines, ¬(r.id = rid ∧ r.ownerId = caller)) :
    getDeck db caller rid = (.notFound "not found", db) ∧
    updateDeck db caller rid pD = (.notFound "not found", db) ∧
    deleteDeck db caller rid = (.notFound "not found", db) ∧
    getRoutine db caller rid = (.notFound "not found", db) ∧
    updateRoutine db caller rid pR = (.notFound "not found", db) ∧
    deleteRoutine db caller rid = (.notFound "not found", db) := by
  have hfd : findOwnedDeck db caller rid = none := by
    apply List.find?_eq_none.mpr
    intro d hdm hcontra
    rw [Bool.and_eq_true, beq_iff_eq, beq_iff_eq] at hcontra
    exact hd d hdm hcontra
  have hfr : findOwnedRoutine db caller rid = none := by
    apply List.find?_eq_none.mpr
    intro r hrm hcontra
    rw [Bool.and_eq_true, beq_iff_eq, beq_iff_eq] at hcontra
    exact hr r hrm hcontra
  refine ⟨?_, ?_, ?_, ?_, ?_, ?_⟩ <;>
    simp [getDeck, updateDeck, deleteDeck, getRoutine, updateRoutine, deleteRoutine,
      hfd, hfr]

def otherDeck : Deck :=
  { id := 1, name := "D", description := none, ownerId := 2, nodes := [], createdAt := "t0" }

def otherRoutine : Routine :=
  { id := 1, name := "R", nodes := [], deckOrder := none, stack := none, deckId := none,
    ownerId := 2, createdAt := "t0", lastRunAt := none }

def otherDB : AppDB := { decks := [otherDeck], routines := [otherRoutine] }

/-- C1 witness: caller 1 against rows owned by user 2. -/
theorem deck_routine_ownership_scoping_witness :
    ((∀ d ∈ otherDB.decks, ¬(d.id = 1 ∧ d.ownerId = 1)) ∧
     (∀ r ∈ otherDB.routines, ¬(r.id = 1 ∧ r.ownerId = 1))) ∧
    (getDeck otherDB 1 1 = (.notFound "not found", otherDB) ∧
     updateDeck otherDB 1 1 {} = (.notFound "not found", otherDB) ∧
     deleteDeck otherDB 1 1 = (.notFound "not found", otherDB) ∧
     getRoutine otherDB 1 1 = (.notFound "not found", otherDB) ∧
     updateRoutine otherDB 1 1 {} = (.notFound "not found", otherDB) ∧
     deleteRoutine otherDB 1 1 = (.notFound "not found", otherDB)) :=
  ⟨⟨by decide, by decide⟩,
   deck_routine_ownership_scoping otherDB 1 1 {} {} (by decide) (by decide)⟩

/-! ### Claim C9: identifier rendering in serialized responses -/

def isJStrOpt : Option JVal → Bool
  | some (.jstr _) => true
  | _ => false

def intOwnedDeck : Deck :=
  { id := 3, name := "D", description := none, ownerId := 5, nodes := [], createdAt := "t0" }

/-- C9 counterexample: `Deck.to_dict` renders `owner_id` as the stored
integer, not as a string, so not every identifier field of a serialized
deck is string-rendered. -/
theorem to_dict_owner_id_counterexample :
    jLookup intOwnedDeck.toDict "owner_id" = some (JVal.jint 5) ∧
    isJStrOpt (jLookup intOwnedDeck.toDict "owner_id") = false :=
  ⟨rfl, rfl⟩

/-- C9 (amended): the row's own `id` (both kinds) and a routine's
non-null `deck_id` are rendered as strings, while the `owner_id`
reference is rendered as the stored integer. -/
theorem to_dict_identifier_rendering (d : Deck) (r r' : Routine) (i : Nat)
    (h : r.deckId = some i) (h' : r'.deckId = none) :
    jLookup d.toDict "id" = some (.jstr (natStr d.id)) ∧
    jLookup d.toDict "owner_id" = some (.jint d.ownerId) ∧
    jLookup r.toDict "id" = some (.jstr (natStr r.id)) ∧
    jLookup r.toDict "deck_id" = some (.jstr (natStr i)) ∧
    jLookup r'.toDict "deck_id" = some JVal.jnull ∧
    jLookup r.toDict "owner_id" = some (.jint r.ownerId) := by
  refine ⟨rfl, rfl, rfl, ?_, ?_, rfl⟩ <;>
    simp [jLookup, Routine.toDict, h, h']

def linkedRoutine : Routine :=
  { id := 4, name := "R", nodes := [], deckOrder := none, stack := none, deckId := some 3,
    ownerId := 5, createdAt := "t0", lastRunAt := none }

/-- C9 witness: concrete deck and routines with and without a deck link. -/
theorem to_dict_identifier_rendering_witness :
    (linkedRoutine.deckId = some 3 ∧ otherRoutine.deckId = none) ∧
    (jLookup intOwnedDeck.toDict "id" = some (.jstr (natStr intOwnedDeck.id)) ∧
     jLookup intOwnedDeck.toDict "owner_id" = some (.jint intOwnedDeck.ownerId) ∧
     jLookup linkedRoutine.toDict "id" = some (.jstr (natStr linkedRoutine.id)) ∧
     jLookup linkedRoutine.toDict "deck_id" = some (.jstr (natStr 3)) ∧
     jLookup otherRoutine.toDict "deck_id" = some JVal.jnull ∧
     jLookup linkedRoutine.toDict "owner_id" = some (.jint linkedRoutine.ownerId)) :=
  ⟨⟨rfl, rfl⟩,
   to_dict_identifier_rendering intOwnedDeck linkedRoutine otherRoutine 3 rfl rfl⟩

/-! ### Claim C2: session token issuance -/

/-- C2 counterexample: a second login by user 1 within the same clock
second re-issues the very token that is already live, so the issued token
is not unique among the currently live tokens. -/
theorem login_token_reissue_counterexample :
    (loginIssue (loginIssue [] 1 100).1 1 100).2 ∈ liveTokens (loginIssue [] 1 100).1 ∧
    (loginIssue (loginIssue [] 1 100).1 1 100).2 = (loginIssue [] 1 100).2 :=
  ⟨by decide, by decide⟩

/-- C2 (amended): tokens of different users, or of the same user at
different issuance seconds, never collide; each issued token resolves to
the issuing user's id; and a user may hold several simultaneous live
tokens. Only a login by the same user within the same clock second
re-issues an already-live token (bound to the same user). -/
theorem issue_token_binding_amended (st : Sessions) (u₁ t₁ u₂ t₂ u ts₁ ts₂ : Nat)
    (hpair : ¬(u₁ = u₂ ∧ t₁ = t₂)) (hts : ts₁ ≠ ts₂) :
    issueToken u₁ t₁ ≠ issueToken u₂ t₂ ∧
    sessLookup (loginIssue st u₁ t₁).1 (loginIssue st u₁ t₁).2 = some u₁ ∧
    sessLookup (loginIssue (loginIssue st u ts₁).1 u ts₂).1 (issueToken u ts₁) = some u ∧
    sessLookup (loginIssue (loginIssue st u ts₁).1 u ts₂).1 (issueToken u ts₂) = some u := by
  refine ⟨fun h => hpair (issueToken_inj _ _ _ _ h), ?_, ?_, ?_⟩
  · simpa [loginIssue] using sessLookup_insert st (issueToken u₁ t₁) u₁
  · have hne : issueToken u ts₁ ≠ issueToken u ts₂ :=
      fun h => hts (issueToken_inj _ _ _ _ h).2
    simp only [loginIssue]
    rw [sessLookup_insert_ne _ _ _ _ hne]
    exact sessLookup_insert st (issueToken u ts₁) u
  · simpa [loginIssue] using
      sessLookup_insert (loginIssue st u ts₁).1 (issueToken u ts₂) u

/-- C2 witness: users 1 and 2 at second 5, and user 3 at seconds 7, 8. -/
theorem issue_token_binding_amended_witness :
    (¬((1 : Nat) = 2 ∧ (5 : Nat) = 5) ∧ (7 : Nat) ≠ 8) ∧
    (issueToken 1 5 ≠ issueToken 2 5 ∧
     sessLookup (loginIssue [] 1 5).1 (loginIssue [] 1 5).2 = some 1 ∧
     sessLookup (loginIssue (loginIssue [] 3 7).1 3 8).1 (issueToken 3 7) = some 3 ∧
     sessLookup (loginIssue (loginIssue [] 3 7).1 3 8).1 (issueToken 3 8) = some 3) :=
  ⟨⟨by decide, by decide⟩,
   issue_token_binding_amended [] 1 5 2 5 3 7 8 (by decide) (by decide)⟩

/-! ### Claim C8: token revocation -/

/-- C8: `logout` removes the registry binding; revocation is idempotent
and revoking an unknown token is a no-op; after revocation the token
resolves to absent and a request presenting only that token is rejected
with the uniform 401 `authentication required`, never an internal
error. -/
theorem revoke_resolve_semantics (st st₀ : Sessions) (tok : String)
    (users : List AppUser) (h : sessLookup st₀ tok = none) :
    (logout st (some tok)).1 = sessRemove st tok ∧
    sessLookup (sessRemove st tok) tok = none ∧
    sessRemove (sessRemove st tok) tok = sessRemove st tok ∧
    sessRemove st₀ tok = st₀ ∧
    requireUser none (some tok) (sessRemove st tok) users
      = .denied "authentication required" := by
  refine ⟨rfl, sessLookup_remove st tok, sessRemove_idem st tok,
    sessRemove_absent st₀ tok h, ?_⟩
  unfold requireUser
  by_cases he : tok = ""
  · simp [he]
  · simp [he, sessLookup_remove]

/-- C8 witness: a revoked token `"t"` in a one-entry registry. -/
theorem revoke_resolve_semantics_witness :
    (sessLookup [] "t" = none) ∧
    ((logout [("t", 1)] (some "t")).1 = sessRemove [("t", 1)] "t" ∧
     sessLookup (sessRemove [("t", 1)] "t") "t" = none ∧
     sessRemove (sessRemove [("t", 1)] "t") "t" = sessRemove [("t", 1)] "t" ∧
     sessRemove [] "t" = [] ∧
     requireUser none (some "t") (sessRemove [("t", 1)] "t") []
       = .denied "authentication required") :=
  ⟨by decide, revoke_resolve_semantics [("t", 1)] [] "t" [] (by decide)⟩

/-! ### Claim C5: best-effort artifact write in `post_actuar` -/

/-- C5: when the record upsert commits and the static-artifact write then
fails, the endpoint still answers the success shape — the committed text
and timestamp — with the failure surfaced only inside the `static`
sub-field, the database keeps the committed upsert, and no file is
written. -/
theorem actuar_artifact_best_effort (adb : ActuarDB) (fs : FS) (u : AppUser)
    (t msg now : String) :
    postActuar adb fs u (some t) false (some msg) now
      = (.success t (some now) (.error msg), upsertActuar adb u.id t now, fs) := by
  simp [postActuar, writeActuarStatic]

/-! ### Lemmas on the actuar2 validation loop and sorting -/

def sanitizeItem : JItem → String
  | .str s => sanitizeToken s
  | .other => ""

def itemOkB : JItem → Bool
  | .str s => sanitizeToken s != ""
  | .other => false

theorem cleanValues_all_ok (l : List JItem) (h : ∀ v ∈ l, itemOkB v = true) :
    cleanValues l = .ok (l.map sanitizeItem) := by
  induction l with
  | nil => rfl
  | cons v t ih =>
    cases v with
    | other =>
      have := h _ (List.mem_cons_self _ _)
      simp [itemOkB] at this
    | str s =>
      have hs := h _ (List.mem_cons_self _ _)
      rw [itemOkB, bne_iff_ne, ne_eq] at hs
      simp [cleanValues, hs, ih (fun v hv => h v (List.mem_cons_of_mem _ hv)), sanitizeItem]

theorem cleanValues_has_bad (l : List JItem) (h : ∃ v ∈ l, itemOkB v = false) :
    ∃ e, cleanValues l = .error e := by
  induction l with
  | nil => simp at h
  | cons v t ih =>
    cases v with
    | other => exact ⟨"all values must be strings", rfl⟩
    | str s =>
      by_cases hs : sanitizeToken s = ""
      · exact ⟨"invalid value: " ++ s, by simp [cleanValues, hs]⟩
      · obtain ⟨w, hw, hwf⟩ := h
        rcases List.mem_cons.mp hw with rfl | hw
        · rw [itemOkB, bne_eq_false_iff_eq] at hwf
          exact absurd hwf hs
        · obtain ⟨e, he⟩ := ih ⟨w, hw, hwf⟩
          refine ⟨e, ?_⟩
          simp [cleanValues, hs, he]

theorem mem_insertStr (x y : String) (l : List String) :
    y ∈ insertStr x l ↔ y = x ∨ y ∈ l := by
  induction l with
  | nil => simp [insertStr]
  | cons z zs ih =>
    by_cases h : x ≤ z
    · simp [insertStr, h]
    · simp only [insertStr, if_neg h, List.mem_cons, ih]
      tauto

theorem sorted_insertStr (x : String) (l : List String)
    (h : l.Pairwise (· ≤ ·)) : (insertStr x l).Pairwise (· ≤ ·) := by
  induction l with
  | nil => simp [insertStr]
  | cons z zs ih =>
    rcases List.pairwise_cons.mp h with ⟨hz, hzs⟩
    by_cases hx : x ≤ z
    · rw [insertStr, if_pos hx]
      apply List.pairwise_cons.mpr
      refine ⟨?_, h⟩
      intro b hb
      rcases List.mem_cons.mp hb with rfl | hb
      · exact hx
      · exact le_trans hx (hz b hb)
    · rw [insertStr, if_neg hx]
      apply List.pairwise_cons.mpr
      refine ⟨?_, ih hzs⟩
      intro b hb
      rcases (mem_insertStr x b zs).mp hb with rfl | hb
      · exact le_of_not_le hx
      · exact hz b hb

theorem sorted_sortStrs (l : List String) : (sortStrs l).Pairwise (· ≤ ·) := by
  induction l with
  | nil => exact List.Pairwise.nil
  | cons x xs ih => exact sorted_insertStr x (sortStrs xs) ih

theorem mem_sortStrs (y : String) (l : List String) : y ∈ sortStrs l ↔ y ∈ l := by
  induction l with
  | nil => simp [sortStrs]
  | cons x xs ih =>
    show y ∈ insertStr x (sortStrs xs) ↔ _
    rw [mem_insertStr, ih, List.mem_cons]

theorem mem_sortedSet (y : String) (l : List String) : y ∈ sortedSet l ↔ y ∈ l := by
  unfold sortedSet
  rw [mem_sortStrs, List.mem_dedup]

theorem a2Get_set (st : A2State) (uid : Nat) (vals : List String) :
    a2Get (a2Set st uid vals) uid = some vals := by
  simp [a2Set, a2Get]

/-! ### Claim C4: `actuar2_init` atomicity and wholesale replacement -/

/-- C4 counterexample: the empty list has no entry that is a non-string
or sanitizes to nothing, yet `actuar2_init` rejects it and leaves the
permitted set unchanged, contradicting the claim's universal success
condition. -/
theorem actuar2_init_empty_counterexample :
    (actuar2Init [(1, ["old"])] 1 []).1
      = .badRequest "values must be a non-empty list of strings" ∧
    (actuar2Init [(1, ["old"])] 1 []).2 = [(1, ["old"])] ∧
    (∀ v ∈ ([] : List JItem), itemOkB v = true) :=
  ⟨by decide, by decide, by decide⟩

/-- C4 (amended): for a non-empty input list whose entries all sanitize
to non-empty tokens, the user's permitted set is replaced wholesale by
the sanitized set and echoed sorted; a list containing a non-string or an
entry sanitizing to nothing fails as a whole with a validation error and
leaves the state exactly as it was. -/
theorem actuar2_init_atomic_replace (st : A2State) (uid : Nat)
    (good bad : List JItem)
    (hg : ∀ v ∈ good, itemOkB v = true) (hgne : good ≠ [])
    (hb : ∃ v ∈ bad, itemOkB v = false) :
    actuar2Init st uid good
      = (.success (sortedSet (good.map sanitizeItem)),
         a2Set st uid (sortedSet (good.map sanitizeItem))) ∧
    a2Get (a2Set st uid (sortedSet (good.map sanitizeItem))) uid
      = some (sortedSet (good.map sanitizeItem)) ∧
    (sortedSet (good.map sanitizeItem)).Pairwise (· ≤ ·) ∧
    (∀ x, x ∈ sortedSet (good.map sanitizeItem) ↔ x ∈ good.map sanitizeItem) ∧
    (actuar2Init st uid bad).2 = st ∧
    (∃ e, (actuar2Init st uid bad).1 = .badRequest e) := by
  have hge : ¬ good.isEmpty = true := by
    cases good with
    | nil => exact absurd rfl hgne
    | cons a l => simp
  have hclean := cleanValues_all_ok good hg
  obtain ⟨e, he⟩ := cleanValues_has_bad bad hb
  have hbne : ¬ bad.isEmpty = true := by
    obtain ⟨v, hv, _⟩ := hb
    cases bad with
    | nil => simp at hv
    | cons a l => simp
  refine ⟨?_, a2Get_set st uid _, sorted_sortStrs _, fun x => mem_sortedSet x _, ?_, ⟨e, ?_⟩⟩
  · simp [actuar2Init, hge, hclean]
  · simp [actuar2Init, hbne, he]
  · simp [actuar2Init, hbne, he]

/-- C4 witness: a good list `["B"]` replacing an old set, and a bad list
holding a non-string entry. -/
theorem actuar2_init_atomic_replace_witness :
    ((∀ v ∈ [JItem.str "B"], itemOkB v = true) ∧ [JItem.str "B"] ≠ [] ∧
     (∃ v ∈ [JItem.other], itemOkB v = false)) ∧
    (actuar2Init [(1, ["old"])] 1 [JItem.str "B"]
      = (.success (sortedSet ([JItem.str "B"].map sanitizeItem)),
         a2Set [(1, ["old"])] 1 (sortedSet ([JItem.str "B"].map sanitizeItem))) ∧
     a2Get (a2Set [(1, ["old"])] 1 (sortedSet ([JItem.str "B"].map sanitizeItem))) 1
       = some (sortedSet ([JItem.str "B"].map sanitizeItem)) ∧
     (sortedSet ([JItem.str "B"].map sanitizeItem)).Pairwise (· ≤ ·) ∧
     (∀ x, x ∈ sortedSet ([JItem.str "B"].map sanitizeItem)
        ↔ x ∈ [JItem.str "B"].map sanitizeItem) ∧
     (actuar2Init [(1, ["old"])] 1 [JItem.other]).2 = [(1, ["old"])] ∧
     (∃ e, (actuar2Init [(1, ["old"])] 1 [JItem.other]).1 = .badRequest e)) :=
  ⟨⟨by decide, by decide, by decide⟩,
   actuar2_init_atomic_replace [(1, ["old"])] 1 [JItem.str "B"] [JItem.other]
     (by decide) (by decide) (by decide)⟩

/-! ### Claim C3: two-phase publish gating in `actuar2_post` -/

/-- C3 counterexample: with permitted set `{"abc"}`, the value `"!!!"`
sanitizes to the empty token, which is not a member of the set — the
claim then demands the `not initialized` error, but the code fails with
the distinct validation error instead. -/
theorem actuar2_post_sanitize_counterexample :
    (actuar2Post [(1, ["abc"])] [] ⟨1, some "a@b.c", none⟩
        (some "!!!") (some "hi") none).1
      = .badRequest "value must include letters, digits, dash or underscore" ∧
    (actuar2Post [(1, ["abc"])] [] ⟨1, some "a@b.c", none⟩
        (some "!!!") (some "hi") none).1 ≠ .badRequest a2NotInitializedMsg ∧
    sanitizeToken "!!!" ∉ ["abc"] ∧
    a2Get [(1, ["abc"])] 1 = some ["abc"] :=
  ⟨by decide, by decide, by decide, by decide⟩

/-- C3 (amended): for a value sanitizing to a non-empty token, the
distinguishable `not initialized` failure happens exactly when the token
is not allowed by the user's current permitted set (absent or empty set
included), and the filesystem is untouched on that failure; the
permitted-set check consults only the most recently stored set; a value
sanitizing to the empty token fails earlier with a validation error, also
writing nothing. -/
theorem actuar2_post_gating_amended (st st' : A2State) (fs : FS) (u : AppUser)
    (v v₀ t : String) (wf : Option String)
    (hv : v ≠ "") (hsv : sanitizeToken v ≠ "")
    (hnot : a2AllowedB st u.id (sanitizeToken v) = false)
    (hall : a2AllowedB st' u.id (sanitizeToken v) = true)
    (hv₀ : sanitizeToken v₀ = "") (hv₀ne : v₀ ≠ "") :
    actuar2Post st fs u (some v) (some t) wf = (.badRequest a2NotInitializedMsg, fs) ∧
    (actuar2Post st' fs u (some v) (some t) wf).1 ≠ .badRequest a2NotInitializedMsg ∧
    (∀ (st₀ : A2State) (S : List String),
       a2AllowedB (a2Set st₀ u.id S) u.id (sanitizeToken v)
         = (!S.isEmpty && S.contains (sanitizeToken v))) ∧
    actuar2Post st fs u (some v₀) (some t) wf
      = (.badRequest "value must include letters, digits, dash or underscore", fs) := by
  refine ⟨?_, ?_, ?_, ?_⟩
  · simp [actuar2Post, normNonEmpty, hv, hsv, hnot]
  · cases wf with
    | some msg => simp [actuar2Post, normNonEmpty, hv, hsv, hall, writeActuarStatic]
    | none => simp [actuar2Post, normNonEmpty, hv, hsv, hall, writeActuarStatic]
  · intro st₀ S
    simp [a2AllowedB, a2Get_set]
  · simp [actuar2Post, normNonEmpty, hv₀ne, hv₀]

/-- C3 witness: user 1, uninitialized state versus `{"abc"}`, value
`"abc"` and unusable value `"!!!"`. -/
theorem actuar2_post_gating_amended_witness :
    (("abc" : String) ≠ "" ∧ sanitizeToken "abc" ≠ "" ∧
     a2AllowedB [] 1 (sanitizeToken "abc") = false ∧
     a2AllowedB [(1, ["abc"])] 1 (sanitizeToken "abc") = true ∧
     sanitizeToken "!!!" = "" ∧ ("!!!" : String) ≠ "") ∧
    (actuar2Post [] [] ⟨1, some "a@b.c", none⟩ (some "abc") (some "hi") none
       = (.badRequest a2NotInitializedMsg, []) ∧
     (actuar2Post [(1, ["abc"])] [] ⟨1, some "a@b.c", none⟩
         (some "abc") (some "hi") none).1 ≠ .badRequest a2NotInitializedMsg ∧
     (∀ (st₀ : A2State) (S : List String),
        a2AllowedB (a2Set st₀ 1 S) 1 (sanitizeToken "abc")
          = (!S.isEmpty && S.contains (sanitizeToken "abc"))) ∧
     actuar2Post [] [] ⟨1, some "a@b.c", none⟩ (some "!!!") (some "hi") none
       = (.badRequest "value must include letters, digits, dash or underscore", [])) :=
  ⟨⟨by decide, by decide, by decide, by decide, by decide, by decide⟩,
   actuar2_post_gating_amended [] [(1, ["abc"])] [] ⟨1, some "a@b.c", none⟩
     "abc" "!!!" "hi" none (by decide) (by decide) (by decide) (by decide)
     (by decide) (by decide)⟩

/-! ### Claim C7: public lookup resolution -/

theorem tails_any_nil (t : List Char) :
    (tails t).any (fun s => likeMatch [] s) = true := by
  induction t with
  | nil => rfl
  | cons c ts ih => simp only [tails, List.any_cons, ih, Bool.or_true]

/-- On a wildcard-free local part, the `LIKE` pattern `qd ++ "@%"` is
exactly the begins-with test for `qd ++ "@"`. -/
theorem likeMatch_local_pattern (qd : List Char)
    (h1 : '%' ∉ qd) (h2 : '_' ∉ qd) :
    ∀ ed, likeMatch (qd ++ '@' :: ['%']) ed = charsStartWith (qd ++ ['@']) ed := by
  induction qd with
  | nil =>
    intro ed
    cases ed with
    | nil => rfl
    | cons c ts =>
      show ('@' == c && likeMatch ['%'] ts) = ('@' == c && true)
      rw [show likeMatch ['%'] ts = (tails ts).any (fun s => likeMatch [] s) from rfl,
        tails_any_nil ts]
  | cons a qs ih =>
    rw [List.mem_cons] at h1 h2
    push_neg at h1 h2
    obtain ⟨ha1, h1⟩ := h1
    obtain ⟨ha2, h2⟩ := h2
    intro ed
    cases ed with
    | nil =>
      show (if a = '%' then (tails ([] : List Char)).any (fun s => likeMatch (qs ++ '@' :: ['%']) s)
            else if a = '_' then false else false)
           = false
      rw [if_neg (Ne.symm ha1), if_neg (Ne.symm ha2)]
    | cons c ts =>
      show (if a = '%' then (tails (c :: ts)).any (fun s => likeMatch (qs ++ '@' :: ['%']) s)
            else if a = '_' then likeMatch (qs ++ '@' :: ['%']) ts
            else (a == c && likeMatch (qs ++ '@' :: ['%']) ts))
           = (a == c && charsStartWith (qs ++ ['@']) ts)
      rw [if_neg (Ne.symm ha1), if_neg (Ne.symm ha2), ih h1 h2 ts]


/-- C7 counterexample: the identifier `"a_b"` is not case-insensitively
equal to the stored email or username, no email begins with `"a_b@"`, and
the claim therefore demands `user not found`; but the SQL `LIKE` pattern
lets `_` match the `x` of `"axb@x.com"`, so the code resolves the user
and returns their record. -/
theorem resolve_like_wildcard_counterexample :
    resolvePublish [⟨1, some "axb@x.com", some "u1"⟩] [⟨1, "hello", some "2025"⟩] "a_b"
      = .record 1 "a_b" "hello" (some "2025") ∧
    charsStartWith "a_b@".data "axb@x.com".data = false ∧
    strLower "axb@x.com" ≠ strLower "a_b" ∧
    strLower "u1" ≠ strLower "a_b" ∧
    ('@' ∈ "a_b".data → False) :=
  ⟨by decide, by decide, by decide, by decide, by decide⟩

/-- C7 (amended): the three resolution steps run in order and step three
uses the SQL `LIKE` pattern `identifier@%` — equivalent to a begins-with
test only for identifiers free of the wildcards `%` and `_`; when no step
matches, the answer is `user not found`; a resolved user without a
publish record yields the well-formed null-text response, not an
error. -/
theorem resolve_publish_amended (users users₂ : List AppUser) (adb adb₂ : ActuarDB)
    (q q₂ : String) (u₀ : AppUser)
    (hq : q ≠ "") (hqs : pyStrip q ≠ "")
    (hnm : ∀ u ∈ users, emailLowerEq (pyStrip q) u = false ∧
           usernameLowerEq (pyStrip q) u = false ∧ emailLikeLocal (pyStrip q) u = false)
    (hq₂ : q₂ ≠ "") (hqs₂ : pyStrip q₂ ≠ "")
    (hfind : users₂.find? (emailLowerEq (pyStrip q₂)) = some u₀)
    (hrow : findActuar adb₂ u₀.id = none) :
    resolvePublish users adb q = .notFoundErr "user not found" ∧
    resolvePublish users₂ adb₂ q₂ = .noRecord q₂ ∧
    (∀ (qd : List Char), '%' ∉ qd → '_' ∉ qd →
       ∀ ed, likeMatch (qd ++ '@' :: ['%']) ed = charsStartWith (qd ++ ['@']) ed) := by
  refine ⟨?_, ?_, fun qd hp hu ed => likeMatch_local_pattern qd hp hu ed⟩
  · have h1 : users.find? (emailLowerEq (pyStrip q)) = none :=
      List.find?_eq_none.mpr fun u hu hc => by rw [(hnm u hu).1] at hc; exact absurd hc (by simp)
    have h2 : users.find? (usernameLowerEq (pyStrip q)) = none :=
      List.find?_eq_none.mpr fun u hu hc => by rw [(hnm u hu).2.1] at hc; exact absurd hc (by simp)
    have h3 : users.find? (emailLikeLocal (pyStrip q)) = none :=
      List.find?_eq_none.mpr fun u hu hc => by rw [(hnm u hu).2.2] at hc; exact absurd hc (by simp)
    unfold resolvePublish
    rw [if_neg hq, if_neg hqs]
    by_cases hat : '@' ∈ (pyStrip q).data <;> simp [h1, h2, h3, hat]
  · unfold resolvePublish
    rw [if_neg hq₂, if_neg hqs₂]
    simp [hfind, hrow]

def likeUsers : List AppUser := [⟨1, some "al@x.com", some "al"⟩]

/-- C7 witness: no identifier `"zed"` match among `likeUsers`, and the
user resolved by exact email `"al@x.com"` with no publish record. -/
theorem resolve_publish_amended_witness :
    (("zed" : String) ≠ "" ∧ pyStrip "zed" ≠ "" ∧
     (∀ u ∈ likeUsers, emailLowerEq (pyStrip "zed") u = false ∧
        usernameLowerEq (pyStrip "zed") u = false ∧
        emailLikeLocal (pyStrip "zed") u = false) ∧
     ("al@x.com" : String) ≠ "" ∧ pyStrip "al@x.com" ≠ "" ∧
     likeUsers.find? (emailLowerEq (pyStrip "al@x.com"))
       = some ⟨1, some "al@x.com", some "al"⟩ ∧
     findActuar [] (1 : Nat) = none) ∧
    (resolvePublish likeUsers [] "zed" = .notFoundErr "user not found" ∧
     resolvePublish likeUsers [] "al@x.com" = .noRecord "al@x.com" ∧
     (∀ (qd : List Char), '%' ∉ qd → '_' ∉ qd →
        ∀ ed, likeMatch (qd ++ '@' :: ['%']) ed = charsStartWith (qd ++ ['@']) ed)) :=
  ⟨⟨by decide, by decide, by decide, by decide, by decide, by decide, by decide⟩,
   resolve_publish_amended likeUsers likeUsers [] [] "zed" "al@x.com"
     ⟨1, some "al@x.com", some "al"⟩
     (by decide) (by decide) (by decide) (by decide) (by decide) (by decide) (by decide)⟩

/-! ### Claim C10: registration seeding -/

/-- C10: registering a fresh email creates the user and seeds one routine
per `INITIAL_ROUTINES` entry — owner set to the new user, `deck_id` null,
name/stack/nodes taken from the entry and its `id` field ignored — and a
seeding failure rolls the seeded rows back while registration still
answers the created-user success response. -/
theorem register_seeding (users : List AppUser) (routines : List Routine)
    (e pw now : String) (uid sid : Nat)
    (he : e ≠ "") (hpw : pw ≠ "") (hfresh : ∀ u ∈ users, u.email ≠ some e) :
    register users routines (some e) (some pw) uid sid now false
      = (.created uid e, users ++ [⟨uid, some e, some e⟩],
         routines ++ seedRoutines INITIAL_ROUTINES uid now sid) ∧
    register users routines (some e) (some pw) uid sid now true
      = (.created uid e, users ++ [⟨uid, some e, some e⟩], routines) ∧
    (seedRoutines INITIAL_ROUTINES uid now sid).length = INITIAL_ROUTINES.length ∧
    (∀ r ∈ seedRoutines INITIAL_ROUTINES uid now sid,
       r.ownerId = uid ∧ r.deckId = none) ∧
    (∀ (entries : List SeedRoutine) (sid' : Nat),
       (seedRoutines entries uid now sid').map (fun r => (r.name, r.stack, r.nodes))
         = entries.map (fun x => (x.name, some x.stack, x.nodes.map SeedNode.toJVal))) ∧
    (∀ (entries entries' : List SeedRoutine) (sid' : Nat),
       entries.map (fun x => (x.name, x.stack, x.nodes))
         = entries'.map (fun x => (x.name, x.stack, x.nodes)) →
       seedRoutines entries uid now sid' = seedRoutines entries' uid now sid') := by
  have hfind : users.find? (fun u => u.email == some e) = none :=
    List.find?_eq_none.mpr fun u hu hc => hfresh u hu (by rwa [beq_iff_eq] at hc)
  refine ⟨?_, ?_, ?_, ?_, ?_, ?_⟩
  · simp [register, normNonEmpty, he, hpw, hfind]
  · simp [register, normNonEmpty, he, hpw, hfind]
  · generalize sid = s
    induction INITIAL_ROUTINES generalizing s with
    | nil => rfl
    | cons r rest ih => simp [seedRoutines, ih]
  · generalize sid = s
    induction INITIAL_ROUTINES generalizing s with
    | nil => intro r hr; simp [seedRoutines] at hr
    | cons x rest ih =>
      intro r hr
      rcases List.mem_cons.mp hr with rfl | hr
      · exact ⟨rfl, rfl⟩
      · exact ih (s + 1) r hr
  · intro entries
    induction entries with
    | nil => intro sid'; rfl
    | cons x rest ih => intro sid'; simp [seedRoutines, ih]
  · intro entries
    induction entries with
    | nil =>
      intro entries' sid' hmap
      cases entries' with
      | nil => rfl
      | cons y ys => simp at hmap
    | cons x xs ih =>
      intro entries' sid' hmap
      cases entries' with
      | nil => simp at hmap
      | cons y ys =>
        simp only [List.map_cons, List.cons.injEq, Prod.mk.injEq] at hmap
        obtain ⟨⟨hn, hs, hnd⟩, htl⟩ := hmap
        simp only [seedRoutines, List.cons.injEq]
        exact ⟨by rw [hn, hs, hnd], ih ys (sid' + 1) htl⟩

/-- C10 witness: registering `"u@x.com"` into an empty store. -/
theorem register_seeding_witness :
    (("u@x.com" : String) ≠ "" ∧ ("pw" : String) ≠ "" ∧
     (∀ u ∈ ([] : List AppUser), u.email ≠ some "u@x.com")) ∧
    (register [] [] (some "u@x.com") (some "pw") 1 10 "t0" false
       = (.created 1 "u@x.com", [] ++ [⟨1, some "u@x.com", some "u@x.com"⟩],
          [] ++ seedRoutines INITIAL_ROUTINES 1 "t0" 10) ∧
     register [] [] (some "u@x.com") (some "pw") 1 10 "t0" true
       = (.created 1 "u@x.com", [] ++ [⟨1, some "u@x.com", some "u@x.com"⟩], []) ∧
     (seedRoutines INITIAL_ROUTINES 1 "t0" 10).length = INITIAL_ROUTINES.length ∧
     (∀ r ∈ seedRoutines INITIAL_ROUTINES 1 "t0" 10,
        r.ownerId = 1 ∧ r.deckId = none) ∧
     (∀ (entries : List SeedRoutine) (sid' : Nat),
        (seedRoutines entries 1 "t0" sid').map (fun r => (r.name, r.stack, r.nodes))
          = entries.map (fun x => (x.name, some x.stack, x.nodes.map SeedNode.toJVal))) ∧
     (∀ (entries entries' : List SeedRoutine) (sid' : Nat),
        entries.map (fun x => (x.name, x.stack, x.nodes))
          = entries'.map (fun x => (x.name, x.stack, x.nodes)) →
        seedRoutines entries 1 "t0" sid' = seedRoutines entries' 1 "t0" sid')) :=
  ⟨⟨by decide, by decide, by decide⟩,
   register_seeding [] [] "u@x.com" "pw" "t0" 1 10 (by decide) (by decide) (by decide)⟩

end AIMaster
